import Mathlib

/-!
Shallow embedding of the recorded GPU allocation subsystem of
`paddle/fluid/platform/device/gpu/gpu_info.cc` (class
`RecordedGpuMallocHelper`, the sizing helper `GpuAllocSize` and the
registry lookup `RecordedGpuMallocHelper::Instance`).

Machine integers: `size_t` / `uint64_t` arithmetic is modelled on `Nat`
with explicit reduction modulo `2^64` (`u64add` / `u64sub`) exactly where
the C++ expression is computed in 64-bit unsigned arithmetic.

The native driver is an oracle: each operation that performs a device
call takes the driver's answer (success / error code, returned pointer,
reported memory figures) as an explicit argument.  `PADDLE_ENFORCE_*`
failures that the spec describes as fatal are modelled by a dedicated
`fatal` result constructor; recoverable Paddle errors
(`ResourceExhausted`, `OutOfRange`, `Unimplemented`) by `Except`.
-/

namespace RecordedGpu

/-- `2^64`, the modulus of `uint64_t` / `size_t` arithmetic. -/
def U64 : Nat := 18446744073709551616

/-- `uint64_t` addition (wraps modulo `2^64`). -/
def u64add (a b : Nat) : Nat := (a + b) % U64

/-- `uint64_t` subtraction (wraps modulo `2^64`). -/
def u64sub (a b : Nat) : Nat := (a % U64 + U64 - b % U64) % U64

/-- GPU runtime error codes relevant to this subsystem (`gpuError_t`).
`other` stands for any further distinct non-success driver code. -/
inductive GpuError where
  | success
  | outOfMemory
  | cudartUnloading
  | other (code : Nat)
  deriving DecidableEq

/-- Recoverable Paddle error kinds raised by this subsystem. -/
inductive PaddleError where
  | resourceExhausted
  | outOfRange
  | unimplemented
  deriving DecidableEq

/-- The `if (*status == gpuErrorOutOfMemory) *status = gpuSuccess;` step of
`RaiseNonOutOfMemoryError`. -/
def clearOOM (e : GpuError) : GpuError :=
  if e = .outOfMemory then .success else e

/-- `RaiseNonOutOfMemoryError(&status)` (gpu_info.cc lines 119-130): clears
an out-of-memory code, then `PADDLE_ENFORCE_GPU_SUCCESS` on the result;
then does the same with the sticky `GpuGetLastError()` code.  Returns
`true` when the call returns normally and `false` when the enforce fires
(fatal). -/
def raiseNonOutOfMemoryError (status lastErr : GpuError) : Bool :=
  decide (clearOOM status = .success) && decide (clearOOM lastErr = .success)

/-- Ordered-set insertion, mirroring `std::set<void*>::insert` on the
sorted strictly-increasing representation. -/
def setInsert (x : Nat) : List Nat → List Nat
  | [] => [x]
  | y :: ys =>
    if x < y then x :: y :: ys
    else if x = y then y :: ys
    else y :: setInsert x ys

/-- Ordered-set erasure, mirroring `std::set<void*>::erase`. -/
def setErase (x : Nat) : List Nat → List Nat
  | [] => []
  | y :: ys => if x = y then ys else y :: setErase x ys

/-- Per-device state of `RecordedGpuMallocHelper`.

* `dev_id` — the immutable device ordinal (`dev_id_`);
* `limit_size` — the immutable soft cap in bytes (`limit_size_`,
  `uint64_t`, `0` = recording disabled);
* `cur_size` — the outstanding-bytes counter (`cur_size_`,
  `std::atomic<uint64_t>`);
* `stat_reserved` — the reserved-memory observability gauge updated via
  `DEVICE_MEMORY_STAT_UPDATE(Reserved, dev_id_, ±size)`;
* `gpu_ptrs` — the diagnostic address set (`std::set<void*> gpu_ptrs`,
  test builds), kept as a sorted list of addresses. -/
structure HelperState where
  dev_id : Int
  limit_size : Nat
  cur_size : Nat
  stat_reserved : Int
  gpu_ptrs : List Nat
  deriving DecidableEq

/-- `NeedRecord()`: recording is enabled iff `limit_size_ != 0`. -/
def needRecord (s : HelperState) : Bool := decide (s.limit_size ≠ 0)

/-- `RecordedSize()`: the current value of the counter. -/
def recordedSize (s : HelperState) : Nat := s.cur_size

/-- `LimitSize()`. -/
def limitSize (s : HelperState) : Nat := s.limit_size

/-- Freshly-constructed helper (`RecordedGpuMallocHelper(dev_id, limit)`):
counter at zero, empty diagnostic set. -/
def initState (dev_id : Int) (limit : Nat) : HelperState :=
  { dev_id := dev_id, limit_size := limit, cur_size := 0,
    stat_reserved := 0, gpu_ptrs := [] }

/-- Driver oracle for one native allocation call (`cudaMalloc` /
`cudaMallocManaged` and the subsequent `cudaGetLastError`): either the
call succeeds and yields an address, or it fails with code `err` and the
sticky error read afterwards is `lastErr`. -/
inductive DeviceMallocOutcome where
  | success (ptr : Nat)
  | failure (err lastErr : GpuError)
  deriving DecidableEq

/-- Result of `Malloc`: a normal return carrying the returned error code,
the post-state and the written `*ptr`, or a fatal enforce failure. -/
inductive MallocResult where
  | ret (err : GpuError) (s : HelperState) (ptr : Option Nat)
  | fatal
  deriving DecidableEq

/-- `RecordedGpuMallocHelper::Malloc(ptr, size, malloc_managed_memory)`
(gpu_info.cc lines 202-247).  The limit check compares
`cur_size_.load() + size` (`uint64_t` sum) against `limit_size_`; on
driver success the counter, gauge and (test builds) address set are
updated; on driver failure `RaiseNonOutOfMemoryError` normalizes the
code and the function returns `gpuErrorOutOfMemory`. -/
def malloc (s : HelperState) (size : Nat) (managed : Bool)
    (dev : DeviceMallocOutcome) : MallocResult :=
  if needRecord s ∧ u64add s.cur_size size > s.limit_size then
    .ret .outOfMemory s none
  else
    match dev with
    | .success ptr =>
        .ret .success
          { s with cur_size := u64add s.cur_size size,
                   stat_reserved := s.stat_reserved + size,
                   gpu_ptrs := setInsert ptr s.gpu_ptrs }
          (some ptr)
    | .failure err lastErr =>
        if raiseNonOutOfMemoryError err lastErr then
          .ret .outOfMemory s none
        else
          .fatal

/-- Result of `Free`: normal return with post-state, or fatal. -/
inductive FreeResult where
  | ok (s : HelperState)
  | fatal
  deriving DecidableEq

/-- `RecordedGpuMallocHelper::Free(ptr, size)` (gpu_info.cc lines
253-284).  `err` is the driver's answer to `cudaFree`.  The code
special-cases `cudaErrorCudartUnloading` (treated as success, counter and
gauge untouched), enforces success otherwise, and on success subtracts
`size` from the counter (`fetch_sub`, `uint64_t`) and updates the gauge.
The diagnostic erase runs on both non-fatal paths. -/
def free (s : HelperState) (ptr : Nat) (size : Nat) (err : GpuError) :
    FreeResult :=
  if err ≠ .cudartUnloading then
    if err = .success then
      .ok { s with cur_size := u64sub s.cur_size size,
                   stat_reserved := s.stat_reserved - size,
                   gpu_ptrs := setErase ptr s.gpu_ptrs }
    else
      .fatal
  else
    .ok { s with gpu_ptrs := setErase ptr s.gpu_ptrs }

/-- Output record of `GetMemInfo`: the four written `size_t` values and
the returned clamped flag. -/
structure MemInfoOut where
  avail : Nat
  total : Nat
  actual_avail : Nat
  actual_total : Nat
  clamped : Bool
  deriving DecidableEq

/-- Result of `GetMemInfo`: normal return or fatal enforce failure. -/
inductive MemInfoResult where
  | ok (o : MemInfoOut)
  | fatal
  deriving DecidableEq

/-- `RecordedGpuMallocHelper::GetMemInfo` (gpu_info.cc lines 301-328).
`devAvail`/`devTotal` are the figures written by `cudaMemGetInfo` and
`result`/`lastErr` its error code and the sticky error read by
`RaiseNonOutOfMemoryError`.  On a failed query `*actual_avail` is zeroed.
With recording enabled the reported figures are clamped with
`limit_size_ - cur_size_.load()` computed in `uint64_t`. -/
def getMemInfo (s : HelperState) (devAvail devTotal : Nat)
    (result lastErr : GpuError) : MemInfoResult :=
  let actual_avail := if result ≠ .success then 0 else devAvail
  let actual_total := devTotal
  if raiseNonOutOfMemoryError result lastErr then
    if needRecord s then
      .ok { avail := min actual_avail (u64sub s.limit_size s.cur_size),
            total := min actual_total s.limit_size,
            actual_avail := actual_avail,
            actual_total := actual_total,
            clamped := decide (min actual_total s.limit_size < actual_total) }
    else
      .ok { avail := actual_avail, total := actual_total,
            actual_avail := actual_avail, actual_total := actual_total,
            clamped := false }
  else
    .fatal

/-- Predecessor query of the test-build `GetBasePtr` (gpu_info.cc lines
286-292): `gpu_ptrs.upper_bound(ptr)` on the sorted address list is the
first element `> ptr`; if that is `begin()` return null, else the element
just before it, i.e. the last element `≤ ptr`. -/
def getBasePtrTesting (ptrs : List Nat) (ptr : Nat) : Option Nat :=
  (ptrs.takeWhile (fun x => decide (x ≤ ptr))).getLast?

/-- `RecordedGpuMallocHelper::GetBasePtr(ptr)` (gpu_info.cc lines
286-299): the predecessor query in test builds, `PADDLE_THROW
(Unimplemented)` otherwise. -/
def getBasePtr (s : HelperState) (ptr : Nat) (testing : Bool) :
    Except PaddleError (Option Nat) :=
  if testing then .ok (getBasePtrTesting s.gpu_ptrs ptr)
  else .error .unimplemented

/-- `RecordedGpuMallocHelper::MemCreate` (gpu_info.cc lines 338-348):
`cuMemCreate` through the driver (oracle `ok`), and on `CUDA_SUCCESS` the
counter is increased by `size` — with no limit check. -/
def memCreate (s : HelperState) (size : Nat) (ok : Bool) : HelperState :=
  if ok then { s with cur_size := u64add s.cur_size size } else s

/-- `RecordedGpuMallocHelper::MemRelease` (gpu_info.cc lines 350-356). -/
def memRelease (s : HelperState) (size : Nat) (ok : Bool) : HelperState :=
  if ok then { s with cur_size := u64sub s.cur_size size } else s

/-- `GpuAllocSize(realloc)` (gpu_info.cc lines 84-105).
`available_to_alloc` is the live `GpuAvailableMemToAlloc()` figure;
`flag_realloc_mb` / `flag_init_mb` are `FLAGS_reallocate_gpu_memory_in_mb`
/ `FLAGS_initial_gpu_memory_in_mb` (`uint64`); `fraction` is the double
flag `FLAGS_fraction_of_gpu_memory_to_use`, modelled as a rational, with
the double→`size_t` conversion as truncation (`Int.floor`, clamped at 0).
`PADDLE_ENFORCE_GT` / `PADDLE_ENFORCE_GE` failures raise
`ResourceExhausted`. -/
def gpuAllocSize (re : Bool) (available_to_alloc : Nat)
    (flag_realloc_mb flag_init_mb : Nat) (fraction : ℚ) :
    Except PaddleError Nat :=
  if ¬ available_to_alloc > 0 then .error .resourceExhausted
  else
    let flag_mb := if re then flag_realloc_mb else flag_init_mb
    let alloc_bytes :=
      if flag_mb > 0 then (flag_mb * 1048576) % U64
      else (⌊(available_to_alloc : ℚ) * fraction⌋).toNat
    if ¬ available_to_alloc ≥ alloc_bytes then .error .resourceExhausted
    else .ok alloc_bytes

/-- `GpuInitAllocSize()` = `GpuAllocSize(/* realloc = */ false)`. -/
def gpuInitAllocSize (available_to_alloc : Nat)
    (flag_realloc_mb flag_init_mb : Nat) (fraction : ℚ) :
    Except PaddleError Nat :=
  gpuAllocSize false available_to_alloc flag_realloc_mb flag_init_mb fraction

/-- `GpuReallocSize()` = `GpuAllocSize(/* realloc = */ true)`. -/
def gpuReallocSize (available_to_alloc : Nat)
    (flag_realloc_mb flag_init_mb : Nat) (fraction : ℚ) :
    Except PaddleError Nat :=
  gpuAllocSize true available_to_alloc flag_realloc_mb flag_init_mb fraction

/-- The table built by the `std::call_once` initializer of
`RecordedGpuMallocHelper::Instance` (gpu_info.cc lines 174-181): one
helper per ordinal `0..dev_cnt-1`, each with limit
`FLAGS_gpu_memory_limit_mb << 20` (`uint64` shift). -/
def buildInstances (dev_cnt : Nat) (limit_mb : Nat) : List HelperState :=
  (List.range dev_cnt).map
    (fun (i : Nat) => initState (i : Int) ((limit_mb * 1048576) % U64))

/-- `RecordedGpuMallocHelper::Instance(dev_id)` (gpu_info.cc lines
171-195): after the once-only table construction, enforce
`dev_id ≥ 0` and `dev_id < instances_.size()` (`OutOfRange` otherwise)
and return the helper at that ordinal. -/
def instanceLookup (dev_id : Int) (dev_cnt : Nat) (limit_mb : Nat) :
    Except PaddleError HelperState :=
  let instances := buildInstances dev_cnt limit_mb
  if ¬ dev_id ≥ 0 then .error .outOfRange
  else if ¬ dev_id < (instances.length : Int) then .error .outOfRange
  else .ok (instances.getD dev_id.toNat (initState 0 0))

/-! ### Sequential execution traces

To state the accounting invariant we run the helper over a sequence of
successful `Malloc`/`Free` calls, carrying the ledger of outstanding
`(pointer, size)` allocations alongside the helper state.  An `alloc`
event stands for a `Malloc` whose native call succeeds and yields the
given address; a `freeE` event frees one outstanding allocation with a
successful native `cudaFree`.  `runEvents` answers `none` when some call
in the sequence is not successful (limit-check rejection or a free of a
block that is not outstanding). -/

/-- One call of a sequential trace. -/
inductive AllocEvent where
  | alloc (ptr size : Nat)
  | freeE (ptr size : Nat)
  deriving DecidableEq

/-- Total bytes of a ledger of outstanding `(pointer, size)` pairs. -/
def sumSizes (out : List (Nat × Nat)) : Nat := (out.map Prod.snd).sum

/-- Total bytes requested by the `alloc` events of a trace. -/
def allocBytes : List AllocEvent → Nat
  | [] => 0
  | .alloc _ sz :: rest => sz + allocBytes rest
  | .freeE _ _ :: rest => allocBytes rest

/-- Run a trace of successful calls from helper state `s` with
outstanding ledger `out`. -/
def runEvents (s : HelperState) (out : List (Nat × Nat)) :
    List AllocEvent → Option (HelperState × List (Nat × Nat))
  | [] => some (s, out)
  | .alloc p sz :: rest =>
    match malloc s sz false (.success p) with
    | .ret .success s' (some q) => runEvents s' ((q, sz) :: out) rest
    | _ => none
  | .freeE p sz :: rest =>
    if (p, sz) ∈ out then
      match free s p sz .success with
      | .ok s' => runEvents s' (out.erase (p, sz)) rest
      | .fatal => none
    else none

/-- `e.all` check that every `alloc` event of a trace requests fewer than
`bound` bytes. -/
def sizesBelow (bound : Nat) (events : List AllocEvent) : Bool :=
  events.all fun e =>
    match e with
    | .alloc _ sz => decide (sz < bound)
    | .freeE _ _ => true

/-! ### Arithmetic helper lemmas -/

theorem u64add_eq_add {a b : Nat} (h : a + b < U64) : u64add a b = a + b :=
  Nat.mod_eq_of_lt h

theorem u64sub_eq_sub {a b : Nat} (hb : b ≤ a) (ha : a < U64) :
    u64sub a b = a - b := by
  unfold u64sub
  rw [Nat.mod_eq_of_lt ha, Nat.mod_eq_of_lt (Nat.lt_of_le_of_lt hb ha)]
  have h1 : a + U64 - b = (a - b) + U64 := by omega
  rw [h1, Nat.add_mod_right, Nat.mod_eq_of_lt (by omega)]

theorem sumSizes_cons (x : Nat × Nat) (l : List (Nat × Nat)) :
    sumSizes (x :: l) = x.2 + sumSizes l := by
  simp [sumSizes]

theorem sumSizes_cons_pair (p sz : Nat) (l : List (Nat × Nat)) :
    sumSizes ((p, sz) :: l) = sz + sumSizes l :=
  sumSizes_cons (p, sz) l

theorem sumSizes_erase {out : List (Nat × Nat)} {p sz : Nat}
    (h : (p, sz) ∈ out) : sumSizes (out.erase (p, sz)) + sz = sumSizes out := by
  induction out with
  | nil => cases h
  | cons x xs ih =>
    by_cases hx : x = (p, sz)
    · subst hx
      rw [List.erase_cons_head, sumSizes_cons]
      omega
    · have hmem : (p, sz) ∈ xs := by
        cases h with
        | head => exact absurd rfl hx
        | tail _ h' => exact h'
      rw [List.erase_cons_tail (by simpa using hx), sumSizes_cons,
        sumSizes_cons]
      have := ih hmem
      omega

theorem sumSizes_mem_le {out : List (Nat × Nat)} {p sz : Nat}
    (h : (p, sz) ∈ out) : sz ≤ sumSizes out := by
  have := sumSizes_erase h
  omega

/-! ### Claim theorems -/

/-- Claim C1: with recording enabled (`limit_size ≠ 0`), a request of
`size` bytes with `cur_size + size > limit_size` makes `Malloc` return
`gpuErrorOutOfMemory` at once, with the same outcome for every possible
native-driver behaviour (so no device call influences the result) and
with the state — in particular `cur_size` — unchanged. -/
theorem malloc_limit_rejects (s : HelperState) (size : Nat)
    (hrec : s.limit_size ≠ 0)
    (hno : s.cur_size + size < U64)
    (hgt : s.cur_size + size > s.limit_size) :
    ∀ (managed : Bool) (dev : DeviceMallocOutcome),
      malloc s size managed dev = .ret .outOfMemory s none := by
  intro managed dev
  have h1 : needRecord s = true := by simp [needRecord, hrec]
  have h2 : u64add s.cur_size size > s.limit_size := by
    rw [u64add_eq_add hno]; exact hgt
  simp [malloc, h1, h2]

/-- Witness for C1: limit 100, counter 0, request 101 bytes. -/
theorem malloc_limit_rejects_witness :
    malloc (initState 0 100) 101 false (.success 7) =
      .ret .outOfMemory (initState 0 100) none :=
  malloc_limit_rejects (initState 0 100) 101 (by decide) (by decide)
    (by decide) false (.success 7)

/-- Claim C3: with recording enabled and a successful driver query,
`GetMemInfo` reports `avail = min(actualAvail, limit - cur)`,
`total = min(actualTotal, limit)` and `clamped = (total < actualTotal)`;
with recording disabled it reports the driver values unmodified and
`clamped = false`.  (Stated for `cur_size ≤ limit_size`; the overshoot
case is claim C10.) -/
theorem getMemInfo_reports (s : HelperState) (devAvail devTotal : Nat)
    (hcur : s.cur_size ≤ s.limit_size) (hlim : s.limit_size < U64) :
    (s.limit_size ≠ 0 →
      getMemInfo s devAvail devTotal .success .success =
        .ok { avail := min devAvail (s.limit_size - s.cur_size),
              total := min devTotal s.limit_size,
              actual_avail := devAvail, actual_total := devTotal,
              clamped := decide (min devTotal s.limit_size < devTotal) }) ∧
    (s.limit_size = 0 →
      getMemInfo s devAvail devTotal .success .success =
        .ok { avail := devAvail, total := devTotal,
              actual_avail := devAvail, actual_total := devTotal,
              clamped := false }) := by
  have hsub : u64sub s.limit_size s.cur_size = s.limit_size - s.cur_size :=
    u64sub_eq_sub hcur hlim
  constructor
  · intro h
    simp [getMemInfo, raiseNonOutOfMemoryError, clearOOM, needRecord, h, hsub]
  · intro h
    simp [getMemInfo, raiseNonOutOfMemoryError, clearOOM, needRecord, h]

/-- Witness for C3: limit 100, counter 30, driver reports 500/1000;
and recording disabled with limit 0. -/
theorem getMemInfo_reports_witness :
    (getMemInfo { initState 0 100 with cur_size := 30 } 500 1000
        .success .success =
      .ok { avail := 70, total := 100, actual_avail := 500,
            actual_total := 1000, clamped := true }) ∧
    (getMemInfo (initState 0 0) 500 1000 .success .success =
      .ok { avail := 500, total := 1000, actual_avail := 500,
            actual_total := 1000, clamped := false }) := by
  constructor
  · have h := (getMemInfo_reports { initState 0 100 with cur_size := 30 }
      500 1000 (by decide) (by decide)).1 (by decide)
    rw [h]; decide
  · exact (getMemInfo_reports (initState 0 0) 500 1000 (by decide)
      (by decide)).2 rfl

/-- Claim C4: when the native allocation fails inside `Malloc` (so the
limit check passed), an out-of-memory driver code (with a benign sticky
error) is normalized to a plain `gpuErrorOutOfMemory` return with the
state unchanged; any other non-success driver code is fatal; and no
execution of `Malloc` ever returns an error code other than `gpuSuccess`
or `gpuErrorOutOfMemory`. -/
theorem malloc_error_normalized (s : HelperState) (size : Nat)
    (managed : Bool)
    (hch : ¬(needRecord s = true ∧ u64add s.cur_size size > s.limit_size)) :
    (∀ lastErr, lastErr = GpuError.success ∨ lastErr = GpuError.outOfMemory →
      malloc s size managed (.failure .outOfMemory lastErr) =
        .ret .outOfMemory s none) ∧
    (∀ err lastErr, err ≠ GpuError.success → err ≠ GpuError.outOfMemory →
      malloc s size managed (.failure err lastErr) = .fatal) ∧
    (∀ dev err s' p, malloc s size managed dev = .ret err s' p →
      err = GpuError.success ∨ err = GpuError.outOfMemory) := by
  refine ⟨?_, ?_, ?_⟩
  · rintro lastErr (rfl | rfl) <;>
      simp [malloc, hch, raiseNonOutOfMemoryError, clearOOM]
  · intro err lastErr h1 h2
    have hra : raiseNonOutOfMemoryError err lastErr = false := by
      simp [raiseNonOutOfMemoryError, clearOOM, h2, h1]
    simp [malloc, hch, hra]
  · intro dev err s' p h
    unfold malloc at h
    by_cases hc : needRecord s = true ∧ u64add s.cur_size size > s.limit_size
    · rw [if_pos hc] at h
      cases h
      exact Or.inr rfl
    · rw [if_neg hc] at h
      cases dev with
      | success q =>
        dsimp only at h
        cases h; exact Or.inl rfl
      | failure e le =>
        dsimp only at h
        by_cases hr : raiseNonOutOfMemoryError e le = true
        · rw [if_pos hr] at h; cases h; exact Or.inr rfl
        · rw [if_neg hr] at h; cases h

/-- Witness for C4: unlimited device, failed 16-byte request with an
out-of-memory code is returned as out-of-memory; a distinct driver code
is fatal. -/
theorem malloc_error_normalized_witness :
    (malloc (initState 0 0) 16 false (.failure .outOfMemory .outOfMemory) =
      .ret .outOfMemory (initState 0 0) none) ∧
    (malloc (initState 0 0) 16 false (.failure (.other 77) .success) =
      .fatal) :=
  ⟨(malloc_error_normalized (initState 0 0) 16 false (by decide)).1
      .outOfMemory (Or.inr rfl),
   (malloc_error_normalized (initState 0 0) 16 false (by decide)).2.1
      (.other 77) .success (by decide) (by decide)⟩

/-- Claim C5: `Free` treats the driver-already-unloading code as success
without touching the counter or the reserved gauge (only the diagnostic
erase runs); any other non-success code is fatal; a successful native
free subtracts `size` from the counter and the gauge. -/
theorem free_error_policy (s : HelperState) (ptr size : Nat)
    (hsz : size ≤ s.cur_size) (hcur : s.cur_size < U64) :
    free s ptr size .cudartUnloading =
      .ok { s with gpu_ptrs := setErase ptr s.gpu_ptrs } ∧
    (∀ err, err ≠ GpuError.success → err ≠ GpuError.cudartUnloading →
      free s ptr size err = .fatal) ∧
    free s ptr size .success =
      .ok { s with cur_size := s.cur_size - size,
                   stat_reserved := s.stat_reserved - size,
                   gpu_ptrs := setErase ptr s.gpu_ptrs } := by
  refine ⟨?_, ?_, ?_⟩
  · simp [free]
  · intro err h1 h2
    simp [free, h1, h2]
  · simp [free, u64sub_eq_sub hsz hcur]

/-- Witness for C5: counter 50, free 30 bytes at address 1000. -/
theorem free_error_policy_witness :
    (free { initState 0 0 with cur_size := 50, gpu_ptrs := [1000] }
        1000 30 .cudartUnloading =
      .ok { initState 0 0 with cur_size := 50, gpu_ptrs := [] }) ∧
    (free { initState 0 0 with cur_size := 50, gpu_ptrs := [1000] }
        1000 30 (.other 3) = .fatal) ∧
    (free { initState 0 0 with cur_size := 50, gpu_ptrs := [1000] }
        1000 30 .success =
      .ok { initState 0 0 with
              cur_size := 20
              stat_reserved := -30
              gpu_ptrs := [] }) := by
  have h := free_error_policy
    { initState 0 0 with cur_size := 50, gpu_ptrs := [1000] }
    1000 30 (by decide) (by decide)
  refine ⟨?_, ?_, ?_⟩
  · rw [h.1]; decide
  · exact h.2.1 (.other 3) (by decide) (by decide)
  · rw [h.2.2]; decide

/-- Claim C8: `Instance(devId)` rejects every ordinal below `0` or at or
above the device count with `OutOfRange` (a pure bounds check, no
allocation), and for an in-range ordinal returns the table entry for that
ordinal: the helper constructed with that `dev_id` and the configured
limit `FLAGS_gpu_memory_limit_mb << 20`. -/
theorem instance_range_check (dev_id : Int) (dev_cnt limit_mb : Nat) :
    ((dev_id < 0 ∨ (dev_cnt : Int) ≤ dev_id) →
      instanceLookup dev_id dev_cnt limit_mb = .error .outOfRange) ∧
    (0 ≤ dev_id → dev_id < (dev_cnt : Int) →
      instanceLookup dev_id dev_cnt limit_mb =
        .ok (initState dev_id ((limit_mb * 1048576) % U64))) := by
  have hlen : (buildInstances dev_cnt limit_mb).length = dev_cnt := by
    rw [buildInstances, List.length_map, List.length_range]
  constructor
  · rintro (h | h)
    · simp [instanceLookup, h, not_le.mpr h]
    · by_cases h0 : 0 ≤ dev_id
      · simp [instanceLookup, h0, hlen, not_lt.mpr h, ge_iff_le]
      · simp [instanceLookup, ge_iff_le, h0]
  · intro h0 hlt
    have hnat : dev_id.toNat < dev_cnt := by omega
    have hval : (buildInstances dev_cnt limit_mb).getD dev_id.toNat
        (initState 0 0) =
        initState (dev_id.toNat : Int) ((limit_mb * 1048576) % U64) := by
      have hl : dev_id.toNat < (buildInstances dev_cnt limit_mb).length := by
        omega
      rw [List.getD_eq_getElem _ _ hl]
      simp only [buildInstances, List.getElem_map, List.getElem_range]
    simp only [instanceLookup, ge_iff_le, hlen]
    rw [if_neg (by omega), if_neg (by omega), hval,
      Int.toNat_of_nonneg h0]

/-- Witness for C8: 4 devices — ordinal `-1` and ordinal `5` rejected,
ordinal `2` served. -/
theorem instance_range_check_witness :
    instanceLookup (-1) 4 100 = .error .outOfRange ∧
    instanceLookup 5 4 100 = .error .outOfRange ∧
    instanceLookup 2 4 100 = .ok (initState 2 104857600) :=
  ⟨(instance_range_check (-1) 4 100).1 (Or.inl (by decide)),
   (instance_range_check 5 4 100).1 (Or.inr (by decide)),
   (instance_range_check 2 4 100).2 (by decide) (by decide)⟩

/-- Claim C6: `GpuInitAllocSize` / `GpuReallocSize` (via
`GpuAllocSize(realloc)`) fail with `ResourceExhausted` when
available-to-allocate is `0`; otherwise they compute the reserve as the
nonzero MB override converted to bytes, or, with a zero override, the
configured fraction of available-to-allocate, and fail with
`ResourceExhausted` exactly when that reserve exceeds
available-to-allocate. -/
theorem gpuAllocSize_policy (re : Bool) (avail flag_re flag_init : Nat)
    (fraction : ℚ)
    (hflag : (if re then flag_re else flag_init) * 1048576 < U64) :
    (avail = 0 →
      gpuAllocSize re avail flag_re flag_init fraction =
        .error .resourceExhausted) ∧
    (∀ bytes, bytes = (if (if re then flag_re else flag_init) > 0
        then (if re then flag_re else flag_init) * 1048576
        else (⌊(avail : ℚ) * fraction⌋).toNat) →
      0 < avail →
      gpuAllocSize re avail flag_re flag_init fraction =
        (if avail < bytes then .error .resourceExhausted else .ok bytes)) ∧
    gpuInitAllocSize avail flag_re flag_init fraction =
      gpuAllocSize false avail flag_re flag_init fraction ∧
    gpuReallocSize avail flag_re flag_init fraction =
      gpuAllocSize true avail flag_re flag_init fraction := by
  refine ⟨?_, ?_, rfl, rfl⟩
  · intro h
    simp [gpuAllocSize, h]
  · intro bytes hb hpos
    simp only [gpuAllocSize]
    rw [if_neg (by omega : ¬ ¬ avail > 0)]
    have hA : (if (if re then flag_re else flag_init) > 0
        then (if re then flag_re else flag_init) * 1048576 % U64
        else (⌊(avail : ℚ) * fraction⌋).toNat) = bytes := by
      rw [hb]
      by_cases hf : (if re then flag_re else flag_init) > 0
      · rw [if_pos hf, if_pos hf, Nat.mod_eq_of_lt hflag]
      · rw [if_neg hf, if_neg hf]
    rw [hA]
    by_cases hlt : avail < bytes
    · rw [if_pos (by omega : ¬ avail ≥ bytes), if_pos hlt]
    · rw [if_neg (by omega : ¬ ¬ avail ≥ bytes), if_neg hlt]

/-- Witness for C6: override of 512 MB with 1 GiB available succeeds
with `512 << 20` bytes; a half fraction of `10^9` bytes available yields
`5·10^8`; zero availability is rejected. -/
theorem gpuAllocSize_policy_witness :
    gpuInitAllocSize 1073741824 0 512 (1/2) = .ok 536870912 ∧
    gpuInitAllocSize 1000000000 0 0 (1/2) = .ok 500000000 ∧
    gpuReallocSize 0 0 512 (1/2) = .error .resourceExhausted := by
  refine ⟨?_, ?_, ?_⟩
  · have h := (gpuAllocSize_policy false 1073741824 0 512 (1/2)
      (by decide)).2.1 536870912 (by decide) (by decide)
    rw [gpuInitAllocSize, h, if_neg (by decide)]
  · have h := (gpuAllocSize_policy false 1000000000 0 0 (1/2)
      (by decide)).2.1 500000000 (by norm_num; rfl) (by decide)
    rw [gpuInitAllocSize, h, if_neg (by decide)]
  · exact (gpuAllocSize_policy true 0 0 512 (1/2) (by decide)).1 rfl

theorem sizesBelow_cons_alloc {b p sz : Nat} {rest : List AllocEvent} :
    sizesBelow b (.alloc p sz :: rest) = true ↔
      sz < b ∧ sizesBelow b rest = true := by
  simp [sizesBelow, List.all_cons]

theorem sizesBelow_cons_free {b p sz : Nat} {rest : List AllocEvent} :
    sizesBelow b (.freeE p sz :: rest) = sizesBelow b rest := by
  simp [sizesBelow, List.all_cons]

/-- Invariant of sequential traces on a device with a nonzero limit:
the counter equals the outstanding bytes and stays at or below the
limit, provided each request stays below `2^64 - limit` (no `uint64`
wrap-around of the check sum). -/
theorem runEvents_inv_limited :
    ∀ (events : List AllocEvent) (s : HelperState)
      (out : List (Nat × Nat)) (s' : HelperState) (out' : List (Nat × Nat)),
      s.limit_size ≠ 0 → s.limit_size < U64 →
      s.cur_size = sumSizes out → s.cur_size ≤ s.limit_size →
      sizesBelow (U64 - s.limit_size) events = true →
      runEvents s out events = some (s', out') →
      s'.limit_size = s.limit_size ∧ s'.cur_size = sumSizes out' ∧
        s'.cur_size ≤ s.limit_size := by
  intro events
  induction events with
  | nil =>
    intro s out s' out' _ _ hsum hle _ hrun
    simp only [runEvents, Option.some.injEq, Prod.mk.injEq] at hrun
    obtain ⟨rfl, rfl⟩ := hrun
    exact ⟨rfl, hsum, hle⟩
  | cons e rest ih =>
    intro s out s' out' h0 hU hsum hle hsz hrun
    cases e with
    | alloc p sz =>
      obtain ⟨hszlt, hszrest⟩ := sizesBelow_cons_alloc.mp hsz
      have hne : needRecord s = true := by simp [needRecord, h0]
      by_cases hc : needRecord s = true ∧ u64add s.cur_size sz > s.limit_size
      · simp only [runEvents, malloc, if_pos hc] at hrun
        exact Option.noConfusion hrun
      · have hlt : s.cur_size + sz < U64 := by omega
        have hadd : u64add s.cur_size sz = s.cur_size + sz :=
          u64add_eq_add hlt
        have hle2 : s.cur_size + sz ≤ s.limit_size := by
          by_contra hgt
          exact hc ⟨hne, by omega⟩
        simp only [runEvents, malloc, if_neg hc] at hrun
        have := ih
          { s with cur_size := u64add s.cur_size sz,
                   stat_reserved := s.stat_reserved + sz,
                   gpu_ptrs := setInsert p s.gpu_ptrs }
          ((p, sz) :: out) s' out' h0 hU
          (show u64add s.cur_size sz = sumSizes ((p, sz) :: out) by
            rw [hadd, sumSizes_cons_pair, hsum]; omega)
          (show u64add s.cur_size sz ≤ s.limit_size by
            rw [hadd]; exact hle2) hszrest hrun
        simpa using this
    | freeE p sz =>
      rw [sizesBelow_cons_free] at hsz
      by_cases hm : (p, sz) ∈ out
      · have hszle : sz ≤ s.cur_size := hsum ▸ sumSizes_mem_le hm
        have hcurU : s.cur_size < U64 := by omega
        have hsub : u64sub s.cur_size sz = s.cur_size - sz :=
          u64sub_eq_sub hszle hcurU
        simp only [runEvents, free, if_pos hm, if_pos
          (by decide : (GpuError.success ≠ GpuError.cudartUnloading)),
          if_pos rfl] at hrun
        have herase := sumSizes_erase hm
        have := ih
          { s with cur_size := u64sub s.cur_size sz,
                   stat_reserved := s.stat_reserved - sz,
                   gpu_ptrs := setErase p s.gpu_ptrs }
          (out.erase (p, sz)) s' out' h0 hU
          (show u64sub s.cur_size sz = sumSizes (out.erase (p, sz)) by
            rw [hsub]; omega)
          (show u64sub s.cur_size sz ≤ s.limit_size by
            rw [hsub]; omega)
          hsz hrun
        simpa using this
      · simp only [runEvents, if_neg hm] at hrun
        exact Option.noConfusion hrun

/-- Claim C2: on a device with limit `L > 0`, after any sequence of
successful `Malloc`/`Free` calls run sequentially from a fresh helper
(each `Free` retiring one outstanding allocation, each request below
`2^64 - L` so the `uint64` check sum does not wrap), the counter equals
the sum of the outstanding allocation sizes and never exceeds `L`. -/
theorem recorded_accounting (d : Int) (L : Nat) (events : List AllocEvent)
    (s' : HelperState) (out' : List (Nat × Nat))
    (hL : L ≠ 0) (hU : L < U64)
    (hsz : sizesBelow (U64 - L) events = true)
    (hrun : runEvents (initState d L) [] events = some (s', out')) :
    s'.cur_size = sumSizes out' ∧ s'.cur_size ≤ L := by
  have h := runEvents_inv_limited events (initState d L) [] s' out'
    hL hU rfl (Nat.zero_le L) hsz hrun
  exact ⟨h.2.1, h.2.2⟩

/-- Witness for C2: limit 100, trace alloc 60 / free 60 / alloc 50. -/
theorem recorded_accounting_witness :
    ({ dev_id := 0, limit_size := 100, cur_size := 50, stat_reserved := 50,
       gpu_ptrs := [2000] } : HelperState).cur_size =
        sumSizes [(2000, 50)] ∧
    ({ dev_id := 0, limit_size := 100, cur_size := 50, stat_reserved := 50,
       gpu_ptrs := [2000] } : HelperState).cur_size ≤ 100 :=
  recorded_accounting 0 100
    [.alloc 1000 60, .freeE 1000 60, .alloc 2000 50] _ _
    (by decide) (by decide) (by decide) (by decide)

/-- Invariant of sequential traces on a device with limit `0`: the
counter still equals the outstanding bytes, provided the total allocated
bytes stay below `2^64`. -/
theorem runEvents_inv_unlimited :
    ∀ (events : List AllocEvent) (s : HelperState)
      (out : List (Nat × Nat)) (s' : HelperState) (out' : List (Nat × Nat)),
      s.limit_size = 0 →
      s.cur_size = sumSizes out →
      sumSizes out + allocBytes events < U64 →
      runEvents s out events = some (s', out') →
      s'.limit_size = 0 ∧ s'.cur_size = sumSizes out' := by
  intro events
  induction events with
  | nil =>
    intro s out s' out' h0 hsum _ hrun
    simp only [runEvents, Option.some.injEq, Prod.mk.injEq] at hrun
    obtain ⟨rfl, rfl⟩ := hrun
    exact ⟨h0, hsum⟩
  | cons e rest ih =>
    intro s out s' out' h0 hsum hbound hrun
    cases e with
    | alloc p sz =>
      have hc : ¬(needRecord s = true ∧
          u64add s.cur_size sz > s.limit_size) := by
        simp [needRecord, h0]
      have hbytes : allocBytes (AllocEvent.alloc p sz :: rest) =
          sz + allocBytes rest := rfl
      rw [hbytes] at hbound
      have hlt : s.cur_size + sz < U64 := by omega
      have hadd : u64add s.cur_size sz = s.cur_size + sz :=
        u64add_eq_add hlt
      simp only [runEvents, malloc, if_neg hc] at hrun
      have := ih
        { s with cur_size := u64add s.cur_size sz,
                 stat_reserved := s.stat_reserved + sz,
                 gpu_ptrs := setInsert p s.gpu_ptrs }
        ((p, sz) :: out) s' out' h0
        (show u64add s.cur_size sz = sumSizes ((p, sz) :: out) by
          rw [hadd, sumSizes_cons_pair, hsum]; omega)
        (show sumSizes ((p, sz) :: out) + allocBytes rest < U64 by
          rw [sumSizes_cons_pair]; omega) hrun
      simpa using this
    | freeE p sz =>
      have hbytes : allocBytes (AllocEvent.freeE p sz :: rest) =
          allocBytes rest := rfl
      rw [hbytes] at hbound
      by_cases hm : (p, sz) ∈ out
      · have hszle : sz ≤ s.cur_size := hsum ▸ sumSizes_mem_le hm
        have hcurU : s.cur_size < U64 := by omega
        have hsub : u64sub s.cur_size sz = s.cur_size - sz :=
          u64sub_eq_sub hszle hcurU
        simp only [runEvents, free, if_pos hm, if_pos
          (by decide : (GpuError.success ≠ GpuError.cudartUnloading)),
          if_pos rfl] at hrun
        have herase := sumSizes_erase hm
        have := ih
          { s with cur_size := u64sub s.cur_size sz,
                   stat_reserved := s.stat_reserved - sz,
                   gpu_ptrs := setErase p s.gpu_ptrs }
          (out.erase (p, sz)) s' out' h0
          (show u64sub s.cur_size sz = sumSizes (out.erase (p, sz)) by
            rw [hsub]; omega)
          (show sumSizes (out.erase (p, sz)) + allocBytes rest < U64 by
            omega) hrun
        simpa using this
      · simp only [runEvents, if_neg hm] at hrun
        exact Option.noConfusion hrun

/-- Claim C9: with `limit_size = 0` the counter is still maintained —
every successful `Malloc` adds `size`, every successful `Free` subtracts
`size` — so after a sequential trace `RecordedSize` reports the
outstanding bytes while `NeedRecord` (`IsGpuMallocRecorded`) is false. -/
theorem unlimited_counting (d : Int) (events : List AllocEvent)
    (s' : HelperState) (out' : List (Nat × Nat))
    (hbytes : allocBytes events < U64)
    (hrun : runEvents (initState d 0) [] events = some (s', out')) :
    needRecord s' = false ∧ recordedSize s' = sumSizes out' ∧
    (∀ (t : HelperState) (size : Nat) (m : Bool) (p : Nat),
      t.limit_size = 0 →
      malloc t size m (.success p) =
        .ret .success
          { t with cur_size := u64add t.cur_size size,
                   stat_reserved := t.stat_reserved + size,
                   gpu_ptrs := setInsert p t.gpu_ptrs }
          (some p)) ∧
    (∀ (t : HelperState) (p size : Nat), t.limit_size = 0 →
      free t p size .success =
        .ok { t with cur_size := u64sub t.cur_size size,
                     stat_reserved := t.stat_reserved - size,
                     gpu_ptrs := setErase p t.gpu_ptrs }) := by
  have h := runEvents_inv_unlimited events (initState d 0) [] s' out'
    rfl rfl (by simpa [sumSizes] using hbytes) hrun
  refine ⟨by simp [needRecord, h.1], h.2, ?_, ?_⟩
  · intro t size m p ht
    simp [malloc, needRecord, ht]
  · intro t p size _
    simp [free]

/-- Witness for C9: trace alloc 70 / alloc 30 / free 70 on an unlimited
device leaves the counter at the outstanding 30 bytes. -/
theorem unlimited_counting_witness :
    needRecord { dev_id := 0, limit_size := 0, cur_size := 30,
                 stat_reserved := 30, gpu_ptrs := [2000] } = false ∧
    recordedSize { dev_id := 0, limit_size := 0, cur_size := 30,
                   stat_reserved := 30, gpu_ptrs := [2000] } =
      sumSizes [(2000, 30)] := by
  have h := unlimited_counting 0
    [.alloc 1000 70, .alloc 2000 30, .freeE 1000 70]
    { dev_id := 0, limit_size := 0, cur_size := 30, stat_reserved := 30,
      gpu_ptrs := [2000] } [(2000, 30)]
    (by decide) (by decide)
  exact ⟨h.1, h.2.1⟩

/-! ### Ordered-set lemmas for the diagnostic address index -/

theorem setInsert_cons (x y : Nat) (ys : List Nat) :
    setInsert x (y :: ys) =
      if x < y then x :: y :: ys
      else if x = y then y :: ys
      else y :: setInsert x ys := rfl

theorem mem_setInsert {z x : Nat} : ∀ {l : List Nat},
    z ∈ setInsert x l ↔ z = x ∨ z ∈ l := by
  intro l
  induction l with
  | nil => simp [setInsert]
  | cons y ys ih =>
    by_cases h1 : x < y
    · rw [setInsert_cons, if_pos h1]
      simp only [List.mem_cons]
    · by_cases h2 : x = y
      · subst h2
        rw [setInsert_cons, if_neg h1, if_pos rfl]
        simp only [List.mem_cons]
        tauto
      · rw [setInsert_cons, if_neg h1, if_neg h2]
        simp only [List.mem_cons, ih]
        tauto

theorem mem_setInsert_self (x : Nat) (l : List Nat) : x ∈ setInsert x l :=
  mem_setInsert.mpr (Or.inl rfl)

theorem setInsert_sorted {x : Nat} : ∀ {l : List Nat},
    List.Sorted (· < ·) l → List.Sorted (· < ·) (setInsert x l) := by
  intro l
  induction l with
  | nil =>
    intro _
    simp [setInsert]
  | cons y ys ih =>
    intro hs
    rw [List.sorted_cons] at hs
    obtain ⟨hy, hys⟩ := hs
    by_cases h1 : x < y
    · rw [setInsert_cons, if_pos h1, List.sorted_cons]
      refine ⟨?_, List.sorted_cons.mpr ⟨hy, hys⟩⟩
      intro b hb
      rcases List.mem_cons.mp hb with rfl | hbys
      · exact h1
      · exact lt_trans h1 (hy b hbys)
    · by_cases h2 : x = y
      · subst h2
        rw [setInsert_cons, if_neg h1, if_pos rfl, List.sorted_cons]
        exact ⟨hy, hys⟩
      · rw [setInsert_cons, if_neg h1, if_neg h2, List.sorted_cons]
        refine ⟨?_, ih hys⟩
        intro b hb
        rcases mem_setInsert.mp hb with rfl | hbys
        · omega
        · exact hy b hbys

theorem getLast?_cons_of_ne_nil {α : Type} {l : List α} (h : l ≠ [])
    (a : α) : (a :: l).getLast? = l.getLast? := by
  cases l with
  | nil => exact absurd rfl h
  | cons c cs => rw [List.getLast?_cons_cons]

/-- Full case analysis of the predecessor query on a sorted address
list: either no recorded address is `≤ q` and the query answers null, or
it answers the largest recorded address `≤ q`. -/
theorem getBasePtrTesting_spec : ∀ (l : List Nat),
    List.Sorted (· < ·) l → ∀ q : Nat,
    (getBasePtrTesting l q = none ∧ ∀ x ∈ l, q < x) ∨
    (∃ b, getBasePtrTesting l q = some b ∧ b ∈ l ∧ b ≤ q ∧
      ∀ x ∈ l, x ≤ q → x ≤ b) := by
  intro l
  induction l with
  | nil =>
    intro _ q
    left
    exact ⟨rfl, by simp⟩
  | cons a t ih =>
    intro hs q
    rw [List.sorted_cons] at hs
    obtain ⟨ha, ht⟩ := hs
    by_cases haq : a ≤ q
    · right
      have htw : (a :: t).takeWhile (fun x => decide (x ≤ q)) =
          a :: t.takeWhile (fun x => decide (x ≤ q)) := by
        simp [List.takeWhile_cons, haq]
      rcases ih ht q with ⟨hnone, hall⟩ | ⟨b, hb, hbmem, hbq, hbmax⟩
      · have ht0 : t.takeWhile (fun x => decide (x ≤ q)) = [] := by
          rw [getBasePtrTesting, List.getLast?_eq_none_iff] at hnone
          exact hnone
        refine ⟨a, ?_, List.mem_cons_self a t, haq, ?_⟩
        · rw [getBasePtrTesting, htw, ht0]
          rfl
        · intro x hx hxq
          rcases List.mem_cons.mp hx with rfl | hxt
          · exact le_refl x
          · exact absurd hxq (not_le.mpr (hall x hxt))
      · refine ⟨b, ?_, List.mem_cons_of_mem a hbmem, hbq, ?_⟩
        · have hne : t.takeWhile (fun x => decide (x ≤ q)) ≠ [] := by
            intro h0
            rw [getBasePtrTesting, h0] at hb
            exact Option.noConfusion hb
          rw [getBasePtrTesting, htw, getLast?_cons_of_ne_nil hne]
          exact hb
        · intro x hx hxq
          rcases List.mem_cons.mp hx with rfl | hxt
          · exact le_of_lt (ha b hbmem)
          · exact hbmax x hxt hxq
    · left
      have htw : (a :: t).takeWhile (fun x => decide (x ≤ q)) = [] := by
        simp [List.takeWhile_cons, haq]
      refine ⟨?_, ?_⟩
      · rw [getBasePtrTesting, htw]
        rfl
      · intro x hx
        rcases List.mem_cons.mp hx with rfl | hxt
        · omega
        · exact lt_trans (by omega) (ha x hxt)

/-- Claim C7: in non-test builds `GetBasePtr` fails with
`Unimplemented`; in test builds it answers null exactly when no recorded
address is `≤ pointer`, otherwise the largest recorded address
`≤ pointer`; and on the address returned by a prior successful `Malloc`
it returns that exact address. -/
theorem getBasePtr_predecessor (s : HelperState) (p : Nat)
    (hs : List.Sorted (· < ·) s.gpu_ptrs) :
    getBasePtr s p false = .error .unimplemented ∧
    (getBasePtrTesting s.gpu_ptrs p = none ↔ ∀ x ∈ s.gpu_ptrs, p < x) ∧
    (∀ b, getBasePtrTesting s.gpu_ptrs p = some b →
      b ∈ s.gpu_ptrs ∧ b ≤ p ∧ ∀ x ∈ s.gpu_ptrs, x ≤ p → x ≤ b) ∧
    (∀ (size : Nat) (m : Bool) (s' : HelperState) (q : Option Nat),
      malloc s size m (.success p) = .ret .success s' q →
      getBasePtr s' p true = .ok (some p)) := by
  refine ⟨by simp [getBasePtr], ?_, ?_, ?_⟩
  · constructor
    · intro hnone
      rcases getBasePtrTesting_spec _ hs p with ⟨_, hall⟩ | ⟨b, hb, _⟩
      · exact hall
      · rw [hb] at hnone
        exact Option.noConfusion hnone
    · intro hall
      rcases getBasePtrTesting_spec _ hs p with ⟨h1, _⟩ |
        ⟨b, _, hbmem, hbq, _⟩
      · exact h1
      · exact absurd hbq (not_le.mpr (hall b hbmem))
  · intro b hb
    rcases getBasePtrTesting_spec _ hs p with ⟨h1, _⟩ |
      ⟨b', hb', hmem, hq, hmax⟩
    · rw [h1] at hb
      exact Option.noConfusion hb
    · rw [hb'] at hb
      injection hb with hbb
      subst hbb
      exact ⟨hmem, hq, hmax⟩
  · intro size m s' q hmal
    unfold malloc at hmal
    by_cases hc : needRecord s = true ∧ u64add s.cur_size size > s.limit_size
    · rw [if_pos hc] at hmal
      cases hmal
    · rw [if_neg hc] at hmal
      dsimp only at hmal
      cases hmal
      have hps : List.Sorted (· < ·) (setInsert p s.gpu_ptrs) :=
        setInsert_sorted hs
      have hpm : p ∈ setInsert p s.gpu_ptrs := mem_setInsert_self p _
      rcases getBasePtrTesting_spec _ hps p with ⟨_, hall⟩ |
        ⟨b, hb, _, hbq, hbmax⟩
      · exact absurd (hall p hpm) (lt_irrefl p)
      · have hbp : b = p := le_antisymm hbq (hbmax p hpm le_rfl)
        subst hbp
        simp [getBasePtr, hb]

/-- Witness for C7: sorted index `[100, 200, 300]`, query at 250 answers
200; the non-test build rejects; an allocation at 250 is then found
exactly. -/
theorem getBasePtr_predecessor_witness :
    getBasePtr { dev_id := 0, limit_size := 0, cur_size := 0,
                 stat_reserved := 0, gpu_ptrs := [100, 200, 300] } 250
        false = .error .unimplemented ∧
    ((200 : Nat) ∈ [100, 200, 300] ∧ (200 : Nat) ≤ 250 ∧
      ∀ x ∈ [100, 200, 300], x ≤ 250 → x ≤ 200) ∧
    getBasePtr { dev_id := 0, limit_size := 0, cur_size := 64,
                 stat_reserved := 64, gpu_ptrs := [100, 200, 250, 300] }
        250 true = .ok (some 250) := by
  have h := getBasePtr_predecessor
    { dev_id := 0, limit_size := 0, cur_size := 0, stat_reserved := 0,
      gpu_ptrs := [100, 200, 300] } 250 (by decide)
  refine ⟨h.1, h.2.2.1 200 (by decide), ?_⟩
  exact h.2.2.2 64 false
    { dev_id := 0, limit_size := 0, cur_size := 64, stat_reserved := 64,
      gpu_ptrs := [100, 200, 250, 300] } (some 250) (by decide)

/-- Claim C10, counterexample to the literal statement: with recording
enabled and the counter above the limit, the reported available is
`min(actualAvailable, wrapped headroom)`, not always `actualAvailable`:
at `limit = 1`, `cur = 2^64 - 1` the wrapped headroom
`limit - cur (mod 2^64)` is `2`, so with `actualAvailable = 100` the
report is `2 ≠ 100`. -/
theorem getMemInfo_overshoot_counterexample :
    needRecord { dev_id := 0, limit_size := 1, cur_size := U64 - 1,
                 stat_reserved := 0, gpu_ptrs := [] } = true ∧
    U64 - 1 > 1 ∧
    getMemInfo { dev_id := 0, limit_size := 1, cur_size := U64 - 1,
                 stat_reserved := 0, gpu_ptrs := [] } 100 200
        .success .success =
      .ok { avail := 2, total := 1, actual_avail := 100,
            actual_total := 200, clamped := true } ∧
    (2 : Nat) ≠ 100 := by
  refine ⟨by decide, by decide, ?_, by decide⟩
  decide

/-- Claim C10 (amended): in `GetMemInfo` with recording enabled,
`limit_size - cur_size` is computed in `uint64_t`, so with
`cur_size > limit_size` (a state `MemCreate` can produce, incrementing
the counter with no limit check) the subtraction wraps to
`2^64 - (cur_size - limit_size)`, and the reported available equals
`actualAvailable` — rather than 0 — whenever
`actualAvailable + (cur_size - limit_size) ≤ 2^64` (always the case for
physically meaningful driver figures and overshoots). -/
theorem getMemInfo_overshoot_wraps (s : HelperState) (a t : Nat)
    (hrec : s.limit_size ≠ 0) (hover : s.limit_size < s.cur_size)
    (hcur : s.cur_size < U64)
    (hphys : a + (s.cur_size - s.limit_size) ≤ U64) :
    u64sub s.limit_size s.cur_size = U64 - (s.cur_size - s.limit_size) ∧
    (∀ (t' : HelperState) (sz : Nat),
      memCreate t' sz true = { t' with cur_size := u64add t'.cur_size sz }) ∧
    getMemInfo s a t .success .success =
      .ok { avail := a, total := min t s.limit_size, actual_avail := a,
            actual_total := t,
            clamped := decide (min t s.limit_size < t) } := by
  have hsub : u64sub s.limit_size s.cur_size =
      U64 - (s.cur_size - s.limit_size) := by
    unfold u64sub
    rw [Nat.mod_eq_of_lt (by omega : s.limit_size < U64),
      Nat.mod_eq_of_lt hcur]
    have h1 : s.limit_size + U64 - s.cur_size =
        U64 - (s.cur_size - s.limit_size) := by omega
    rw [h1, Nat.mod_eq_of_lt (by omega)]
  refine ⟨hsub, fun t' sz => rfl, ?_⟩
  have hmin : min a (u64sub s.limit_size s.cur_size) = a := by
    rw [hsub]
    exact Nat.min_eq_left (by omega)
  simp [getMemInfo, raiseNonOutOfMemoryError, clearOOM, needRecord, hrec,
    hmin]

/-- Witness for amended C10: limit 100, counter 150 (overshoot 50),
driver reports 500/1000: available is reported as the full 500. -/
theorem getMemInfo_overshoot_wraps_witness :
    u64sub 100 150 = U64 - 50 ∧
    getMemInfo { dev_id := 0, limit_size := 100, cur_size := 150,
                 stat_reserved := 0, gpu_ptrs := [] } 500 1000
        .success .success =
      .ok { avail := 500, total := 100, actual_avail := 500,
            actual_total := 1000, clamped := true } := by
  have h := getMemInfo_overshoot_wraps
    { dev_id := 0, limit_size := 100, cur_size := 150, stat_reserved := 0,
      gpu_ptrs := [] } 500 1000 (by decide) (by decide) (by decide)
    (by decide)
  refine ⟨h.1, ?_⟩
  rw [h.2.2]
  decide

end RecordedGpu
